import Mathlib

/-!
Shallow embedding of the Fresh Eats client UI (src/src/App.js): the
configuration resolver, the products collection path, the snapshot-handling
state transition of the Firestore listener, and the view-model derivation
(availability filter, category list derivation, category filter, grouping by
category) together with the four-way rendering dispatch of renderProductList.
-/

namespace FreshEats

/-- Product document as consumed by the view logic.  The JS code inspects the
fields id, name, category and available; description and price are only
interpolated into markup and never branched on, so they are omitted.  A
missing category and an empty category string are both falsy in JS and are
both modelled by the empty string. -/
structure Product where
  id : String
  name : String
  category : String
  available : Bool
  deriving DecidableEq, Repr

/-- Code-unit comparison of character lists, the order the JS default sort
comparator applies to strings. -/
def strLtChars : List Char → List Char → Bool
  | [], [] => false
  | [], _ :: _ => true
  | _ :: _, [] => false
  | a :: as, b :: bs =>
    if a < b then true
    else if b < a then false
    else strLtChars as bs

/-- Code-unit comparison of strings (JS relational comparison of strings,
used by the default Array sort comparator). -/
def strLt (a b : String) : Bool := strLtChars a.data b.data

/-- Insert a string into an already sorted list, keeping earlier entries in
front of later equal ones. -/
def jsInsert (a : String) : List String → List String
  | [] => [a]
  | b :: l => if strLt a b then a :: b :: l else b :: jsInsert a l

/-- Insertion sort modelling the JS default Array sort of a string array. -/
def jsSort : List String → List String
  | [] => []
  | a :: l => jsInsert a (jsSort l)

/-- First-occurrence deduplication with an accumulator of already seen
entries; jsSetDedup below models the JS Set constructor, which keeps the
first occurrence of each element in insertion order. -/
def jsSetDedupAux (seen : List String) : List String → List String
  | [] => []
  | c :: cs =>
    if c ∈ seen then jsSetDedupAux seen cs
    else c :: jsSetDedupAux (c :: seen) cs

/-- Spread of a JS Set built from a string list: the distinct elements in
first-occurrence order. -/
def jsSetDedup (l : List String) : List String := jsSetDedupAux [] l

/-- Category list derived in the snapshot callback (App.js line 137):
uniqueCategories is the sort of the array literal whose head is the string
All followed by the spread of the Set of the non-empty categories of the RAW
product list.  Note that the sort runs over the whole array, the prepended
All included, and that the raw list is used, not the availability-filtered
one. -/
def uniqueCategories (productList : List Product) : List String :=
  jsSort ("All" :: jsSetDedup ((productList.map (fun p => p.category)).filter (fun c => c != "")))

/-- Category filter applied to the available products (App.js lines 157-159). -/
def filteredProducts (products : List Product) (activeCategory : String) : List Product :=
  products.filter (fun p => activeCategory == "All" || p.category == activeCategory)

/-- Display category of a product: the JS expression product.category with
the Uncategorized fallback for a falsy (empty) category (App.js line 162). -/
def displayCategory (p : Product) : String :=
  if p.category = "" then "Uncategorized" else p.category

/-- One step of the grouping reduce (App.js lines 161-168): push the product
onto its category group, creating the group at the end of the accumulator on
its first occurrence.  The accumulator is the JS object with its keys in
insertion order; the enumeration order Object.entries applies to it, which
moves array-index-like keys to the front, is modelled separately by
objectEntries below. -/
def addToGroup : List (String × List Product) → String → Product → List (String × List Product)
  | [], category, p => [(category, [p])]
  | (k, ps) :: rest, category, p =>
    if k = category then (k, ps ++ [p]) :: rest
    else (k, ps) :: addToGroup rest category p

/-- Grouping of the filtered products by display category (App.js lines
161-168). -/
def productsGroupedByCategory (fps : List Product) : List (String × List Product) :=
  fps.foldl (fun acc p => addToGroup acc (displayCategory p) p) []

/-- Derived view model: the available products, the category list, and the
grouped map, all as computed for one snapshot and one active category. -/
structure ViewState where
  products : List Product
  categories : List String
  grouped : List (String × List Product)
  deriving DecidableEq, Repr

/-- View-model derivation for one raw snapshot list and one active category:
products is the availability filter of the snapshot (App.js line 133),
categories the derived category list (line 137), grouped the grouping of the
category-filtered available products (lines 157-168). -/
def reduce (raw : List Product) (activeCategory : String) : ViewState :=
  let products := raw.filter (fun p => p.available)
  { products := products
    categories := uniqueCategories raw
    grouped := productsGroupedByCategory (filteredProducts products activeCategory) }

/-- The four mutually exclusive render outcomes of renderProductList. -/
inductive UIState
  | Loading
  | Error
  | Empty
  | Populated
  deriving DecidableEq, Repr

/-- Rendering dispatch (App.js lines 211-254): loading first, then error,
then the empty menu, then the populated grid.  The error state variable is
either null or one of the non-empty message strings the code builds, so the
JS truthiness test on it is modelled by Option.isSome. -/
def renderProductList (loading : Bool) (error : Option String) (products : List Product) : UIState :=
  if loading then UIState.Loading
  else if error.isSome then UIState.Error
  else if products.length = 0 then UIState.Empty
  else UIState.Populated

/-- Component state touched by the Firestore listener (App.js lines 70-75):
the available products, the loading flag, the error message and the category
list. -/
structure AppState where
  products : List Product
  loading : Bool
  error : Option String
  categories : List String
  deriving DecidableEq, Repr

/-- Events delivered to the listener: a successful snapshot (the raw document
list), a failure of the snapshot transform (the catch block of the success
callback), or a failure reported by the subscription error callback. -/
inductive SnapshotEvent
  | success (docs : List Product)
  | transformFailure (msg : String)
  | subscribeFailure (msg : String)
  deriving DecidableEq, Repr

/-- Effect of one listener event on the component state (App.js lines
115-153).  The guard on line 117 returns from the effect without subscribing
once error is non-null (and the cleanup of the previous effect run has
unsubscribed), so no event changes the state any more; with error null, a
successful snapshot stores the availability-filtered products, clears the
loading flag and recomputes the category list, and either failure stores its
message and clears the loading flag.  No branch ever resets error to null. -/
def applySnapshot (s : AppState) (e : SnapshotEvent) : AppState :=
  if s.error.isSome then s
  else
    match e with
    | SnapshotEvent.success docs =>
      { s with
        products := docs.filter (fun p => p.available)
        loading := false
        categories := uniqueCategories docs }
    | SnapshotEvent.transformFailure msg =>
      { s with
        error := some ("Data fetch failed: " ++ msg ++ ". Please verify Firestore rules.")
        loading := false }
    | SnapshotEvent.subscribeFailure msg =>
      { s with
        error := some ("Real-time data error: " ++ msg ++ ". Please verify Firestore rules.")
        loading := false }

/-- Fold of a sequence of listener events over the component state. -/
def runEvents (s : AppState) (es : List SnapshotEvent) : AppState :=
  es.foldl applySnapshot s

/-- Firebase configuration record (the six fields of the fallback literal in
App.js lines 33-40). -/
structure FirebaseConfig where
  apiKey : String
  authDomain : String
  projectId : String
  storageBucket : String
  messagingSenderId : String
  appId : String
  deriving DecidableEq, Repr

/-- Built-in fallback (mock) configuration (App.js lines 33-40). -/
def FALLBACK_FIREBASE_CONFIG : FirebaseConfig :=
  { apiKey := "MOCK_API_KEY"
    authDomain := "mock-auth-domain.firebaseapp.com"
    projectId := "mock-project-id"
    storageBucket := "mock-storage-bucket.appspot.com"
    messagingSenderId := "MOCK_SENDER_ID"
    appId := "MOCK_APP_ID" }

/-- Resolution of the externally supplied configuration blob (App.js lines
47-54).  The blob is the optional global string; absence is none, and the JS
truthiness test makes the empty string fall back as well.  The JSON.parse
call of the library is modelled by the parseJson argument, which returns none
where the parse would throw (the catch branch).  The second component is the
fallback flag of line 78, the reference-equality test that is true exactly on
the branches that picked the fallback literal. -/
def resolveFirebaseConfig (blob : Option String)
    (parseJson : String → Option FirebaseConfig) : FirebaseConfig × Bool :=
  match blob with
  | none => (FALLBACK_FIREBASE_CONFIG, true)
  | some s =>
    if s = "" then (FALLBACK_FIREBASE_CONFIG, true)
    else
      match parseJson s with
      | some cfg => (cfg, false)
      | none => (FALLBACK_FIREBASE_CONFIG, true)

/-- Built-in fallback tenant identifier (App.js line 42). -/
def DEFAULT_APP_ID : String := "fresh-eats-admin-dev"

/-- Resolution of the tenant identifier global (App.js line 45): the external
value when defined, else the default. -/
def resolveAppId (externalAppId : Option String) : String :=
  externalAppId.getD DEFAULT_APP_ID

/-- Tenant identifier used by the listener (App.js line 121): the default
identifier whenever the fallback configuration is active, else the resolved
one. -/
def dataAppId (isFallback : Bool) (appId : String) : String :=
  if isFallback then DEFAULT_APP_ID else appId

/-- Collection path builder (App.js line 57). -/
def getProductCollectionPath (appId : String) : String :=
  "/artifacts/" ++ appId ++ "/public/data/products"

/-- Concatenation of all groups of a grouped map: exactly the products the
populated view renders across its sections. -/
def groupedMembers : List (String × List Product) → List Product
  | [] => []
  | (_, ps) :: rest => ps ++ groupedMembers rest

/-- Lookup of the group stored under a category key (the empty list when the
key is absent). -/
def findGroup : List (String × List Product) → String → List Product
  | [], _ => []
  | (k, ps) :: rest, c => if k = c then ps else findGroup rest c

/-- Distinct elements of a string list in order of first occurrence. -/
def firstOccurrences (l : List String) : List String :=
  l.foldl (fun ks c => if c ∈ ks then ks else ks ++ [c]) []

/-- Numeric value of a digit string (used for the array-index key test and
the numeric ordering of such keys). -/
def strToNat (s : String) : Nat :=
  s.data.foldl (fun n c => 10 * n + (c.toNat - 48)) 0

/-- Test for an ECMAScript array-index property key: a canonical decimal
string (digits only, no leading zero except the string 0 itself) whose value
is below 4294967295.  Such keys are enumerated before all other string keys
by Object.entries. -/
def isArrayIndex (s : String) : Bool :=
  match s.data with
  | [] => false
  | c :: cs =>
    (c :: cs).all (fun d => decide (48 ≤ d.toNat) && decide (d.toNat ≤ 57)) &&
    (cs.isEmpty || decide (c.toNat ≠ 48)) &&
    decide (strToNat s < 4294967295)

/-- Insert a grouped entry into a list sorted by the numeric value of its
key. -/
def numInsert (e : String × List Product) :
    List (String × List Product) → List (String × List Product)
  | [] => [e]
  | f :: l => if strToNat e.1 < strToNat f.1 then e :: f :: l else f :: numInsert e l

/-- Sort grouped entries by ascending numeric value of their keys. -/
def numSortEntries : List (String × List Product) → List (String × List Product)
  | [] => []
  | e :: l => numInsert e (numSortEntries l)

/-- Enumeration order of Object.entries over the grouping object (App.js
line 256), per the ECMAScript own-property-key order: array-index-like keys
first, in ascending numeric order, then the remaining string keys in
insertion order. -/
def objectEntries (g : List (String × List Product)) : List (String × List Product) :=
  numSortEntries (g.filter (fun e => isArrayIndex e.1)) ++
    g.filter (fun e => !(isArrayIndex e.1))

/-! Concrete data used by counterexamples and witnesses. -/

/-- Soup product of the worked scenario in the spec (available starter). -/
def soupProduct : Product :=
  { id := "1", name := "Soup", category := "Starters", available := true }

/-- Cake product of the worked scenario in the spec (unavailable dessert). -/
def cakeProduct : Product :=
  { id := "2", name := "Cake", category := "Desserts", available := false }

/-- Raw snapshot list of the worked scenario in the spec. -/
def scenarioRaw : List Product := [soupProduct, cakeProduct]

/-- Raw list whose categories defeat the All-first and no-duplicates claims:
one category sorts before the string All and another equals it. -/
def c2BadRaw : List Product :=
  [{ id := "3", name := "Ant Platter", category := "Aardvark", available := true },
   { id := "4", name := "Sampler", category := "All", available := true }]

/-- Raw list with one well-behaved category. -/
def c2GoodRaw : List Product :=
  [{ id := "5", name := "Soup", category := "Starters", available := true }]

/-- Component state as initialised by the useState calls (App.js lines 70-74). -/
def initialAppState : AppState :=
  { products := [], loading := true, error := none, categories := [] }

/-- Documents of a successful delivery preceding the failure in the C3
scenario. -/
def c3PriorDocs : List Product :=
  [{ id := "6", name := "Pasta", category := "Mains", available := true }]

/-- Available product with an empty category. -/
def waterProduct : Product :=
  { id := "7", name := "Water", category := "", available := true }

/-- Available product with a regular category. -/
def teaProduct : Product :=
  { id := "8", name := "Tea", category := "Drinks", available := true }

/-- Available product whose literal category is the string Uncategorized. -/
def mysteryProduct : Product :=
  { id := "9", name := "Mystery", category := "Uncategorized", available := true }

/-- Raw list exercising the empty-category behaviour. -/
def c10Raw : List Product := [waterProduct, teaProduct, mysteryProduct]

/-- Raw list whose second category is the array-index-like string 2, which
Object.entries moves in front of the earlier Snacks group. -/
def c9Raw : List Product :=
  [{ id := "10", name := "Chips", category := "Snacks", available := true },
   { id := "11", name := "Combo", category := "2", available := true }]

/-- Raw list with only ordinary (non-array-index) categories, Snacks twice
and Drinks once. -/
def c9GoodRaw : List Product :=
  [{ id := "12", name := "Chips", category := "Snacks", available := true },
   { id := "13", name := "Juice", category := "Drinks", available := true },
   { id := "14", name := "Nuts", category := "Snacks", available := true }]

/-! Lemmas about the string order and the sort. -/

theorem strLtChars_irrefl (l : List Char) : strLtChars l l = false := by
  induction l with
  | nil => rfl
  | cons a as ih => simp [strLtChars, ih]

theorem strLt_irrefl (a : String) : strLt a a = false := strLtChars_irrefl a.data

theorem strLtChars_antisymm (as : List Char) :
    ∀ bs, strLtChars as bs = false → strLtChars bs as = false → as = bs := by
  induction as with
  | nil =>
    intro bs h1 _
    cases bs with
    | nil => rfl
    | cons b bs => simp [strLtChars] at h1
  | cons a as ih =>
    intro bs h1 h2
    cases bs with
    | nil => simp [strLtChars] at h2
    | cons b bs =>
      simp only [strLtChars] at h1 h2
      by_cases hab : a < b
      · simp [hab] at h1
      · by_cases hba : b < a
        · simp [hba] at h2
        · have hEq : a = b := le_antisymm (not_lt.mp hba) (not_lt.mp hab)
          subst hEq
          simp only [lt_irrefl, if_false] at h1 h2
          exact congrArg (List.cons a) (ih bs h1 h2)

theorem strLt_antisymm (a b : String) (h1 : strLt a b = false) (h2 : strLt b a = false) :
    a = b := by
  cases a with
  | mk da =>
    cases b with
    | mk db => exact congrArg String.mk (strLtChars_antisymm da db h1 h2)

theorem jsInsert_perm (a : String) (l : List String) : List.Perm (jsInsert a l) (a :: l) := by
  induction l with
  | nil => exact List.Perm.refl _
  | cons b t ih =>
    simp only [jsInsert]
    split
    · exact List.Perm.refl _
    · exact (ih.cons b).trans (List.Perm.swap a b t)

theorem jsSort_perm (l : List String) : List.Perm (jsSort l) l := by
  induction l with
  | nil => exact List.Perm.refl _
  | cons a t ih => exact (jsInsert_perm a (jsSort t)).trans (ih.cons a)

theorem mem_jsSort (a : String) (l : List String) : a ∈ jsSort l ↔ a ∈ l :=
  (jsSort_perm l).mem_iff

theorem jsSort_head_min (l : List String) (a : String) (ha : a ∈ l)
    (hmin : ∀ b ∈ l, strLt b a = false) : (jsSort l).head? = some a := by
  induction l with
  | nil => cases ha
  | cons c t ih =>
    by_cases hat : a ∈ t
    · have hIH := ih hat (fun b hb => hmin b (List.mem_cons_of_mem c hb))
      show (jsInsert c (jsSort t)).head? = some a
      cases hS : jsSort t with
      | nil => rw [hS] at hIH; simp at hIH
      | cons d S =>
        rw [hS] at hIH
        simp only [List.head?_cons, Option.some.injEq] at hIH
        have hca : strLt c a = false := hmin c (List.mem_cons_self c t)
        simp [jsInsert, hca, hIH]
    · have hac : a = c := by
        rcases List.mem_cons.mp ha with h | h
        · exact h
        · exact absurd h hat
      show (jsInsert c (jsSort t)).head? = some a
      cases hS : jsSort t with
      | nil => simp [jsInsert, hac]
      | cons d S =>
        have hd : d ∈ t := (mem_jsSort d t).mp (hS ▸ List.mem_cons_self d S)
        have hda : strLt d a = false := hmin d (List.mem_cons_of_mem c hd)
        simp only [jsInsert]
        by_cases had : strLt c d = true
        · simp [had, hac]
        · have had' : strLt c d = false := Bool.eq_false_iff.mpr had
          have hcd : c = d := strLt_antisymm c d had' (hac ▸ hda)
          simp [had', hac, hcd, strLt_irrefl]

/-! Lemmas about the Set model. -/

theorem mem_jsSetDedupAux (l : List String) :
    ∀ seen c, c ∈ jsSetDedupAux seen l → c ∈ l := by
  induction l with
  | nil => intro seen c h; simp [jsSetDedupAux] at h
  | cons d t ih =>
    intro seen c h
    simp only [jsSetDedupAux] at h
    by_cases hd : d ∈ seen
    · simp only [if_pos hd] at h
      exact List.mem_cons_of_mem d (ih seen c h)
    · simp only [if_neg hd, List.mem_cons] at h
      rcases h with h | h
      · exact h ▸ List.mem_cons_self d t
      · exact List.mem_cons_of_mem d (ih (d :: seen) c h)

theorem jsSetDedupAux_nodup (l : List String) :
    ∀ seen, (jsSetDedupAux seen l).Nodup ∧ ∀ c ∈ jsSetDedupAux seen l, c ∉ seen := by
  induction l with
  | nil =>
    intro seen
    refine ⟨by simp [jsSetDedupAux], ?_⟩
    intro c hc
    simp [jsSetDedupAux] at hc
  | cons d t ih =>
    intro seen
    by_cases hd : d ∈ seen
    · simpa only [jsSetDedupAux, if_pos hd] using ih seen
    · obtain ⟨hn, hs⟩ := ih (d :: seen)
      simp only [jsSetDedupAux, if_neg hd]
      refine ⟨List.nodup_cons.mpr ⟨fun hmem => ?_, hn⟩, ?_⟩
      · exact hs d hmem (List.mem_cons_self d seen)
      · intro c hc
        rcases List.mem_cons.mp hc with h | h
        · exact h ▸ hd
        · exact fun hcs => hs c h (List.mem_cons_of_mem d hcs)

theorem mem_jsSetDedup (l : List String) (c : String) (h : c ∈ jsSetDedup l) : c ∈ l :=
  mem_jsSetDedupAux l [] c h

theorem jsSetDedup_nodup (l : List String) : (jsSetDedup l).Nodup :=
  (jsSetDedupAux_nodup l []).1

/-! Lemmas about the derived category list. -/

theorem all_mem_uniqueCategories (raw : List Product) : "All" ∈ uniqueCategories raw :=
  (mem_jsSort "All" _).mpr (List.mem_cons_self _ _)

theorem mem_uniqueCategories_cases (raw : List Product) (c : String)
    (h : c ∈ uniqueCategories raw) :
    c = "All" ∨ (c ≠ "" ∧ ∃ p, p ∈ raw ∧ p.category = c) := by
  unfold uniqueCategories at h
  rcases List.mem_cons.mp ((mem_jsSort c _).mp h) with h | h
  · exact Or.inl h
  · right
    have h2 := mem_jsSetDedup _ c h
    obtain ⟨h3, h4⟩ := List.mem_filter.mp h2
    refine ⟨by simpa using h4, ?_⟩
    obtain ⟨p, hp, hpc⟩ := List.mem_map.mp h3
    exact ⟨p, hp, hpc⟩

/-! Lemmas about the grouping accumulator. -/

theorem mem_groupedMembers_addToGroup (acc : List (String × List Product)) (c : String)
    (p q : Product) :
    q ∈ groupedMembers (addToGroup acc c p) ↔ q ∈ groupedMembers acc ∨ q = p := by
  induction acc with
  | nil => simp [addToGroup, groupedMembers]
  | cons e rest ih =>
    obtain ⟨k, ps⟩ := e
    by_cases hk : k = c
    · subst hk
      simp only [addToGroup, if_pos rfl, groupedMembers, List.mem_append, List.mem_singleton]
      tauto
    · simp only [addToGroup, if_neg hk, groupedMembers, List.mem_append, ih]
      tauto

theorem mem_groupedMembers_foldl (l : List Product) (q : Product) :
    ∀ acc, q ∈ groupedMembers (l.foldl (fun a p => addToGroup a (displayCategory p) p) acc) →
      q ∈ groupedMembers acc ∨ q ∈ l := by
  induction l with
  | nil => intro acc h; exact Or.inl h
  | cons p t ih =>
    intro acc h
    rcases ih _ h with h2 | h2
    · rcases (mem_groupedMembers_addToGroup acc (displayCategory p) p q).mp h2 with h3 | h3
      · exact Or.inl h3
      · exact Or.inr (h3 ▸ List.mem_cons_self p t)
    · exact Or.inr (List.mem_cons_of_mem p h2)

theorem mem_groupedMembers_of_group (p : Product) (ps : List Product) (c : String) :
    ∀ g, (c, ps) ∈ g → p ∈ ps → p ∈ groupedMembers g := by
  intro g
  induction g with
  | nil => intro h; cases h
  | cons e rest ih =>
    intro hg hp
    rcases List.mem_cons.mp hg with h | h
    · obtain ⟨k, qs⟩ := e
      cases h
      simp only [groupedMembers, List.mem_append]
      exact Or.inl hp
    · obtain ⟨k, qs⟩ := e
      simp only [groupedMembers, List.mem_append]
      exact Or.inr (ih h hp)

theorem findGroup_addToGroup (acc : List (String × List Product)) (c c' : String)
    (q : Product) :
    findGroup (addToGroup acc c' q) c =
      if c = c' then findGroup acc c ++ [q] else findGroup acc c := by
  induction acc with
  | nil =>
    by_cases h : c = c'
    · simp [addToGroup, findGroup, h]
    · simp [addToGroup, findGroup, h, Ne.symm h]
  | cons e rest ih =>
    obtain ⟨k, ps⟩ := e
    by_cases hk : k = c'
    · subst hk
      simp only [addToGroup, if_pos rfl]
      by_cases hc : c = k
      · subst hc
        simp [findGroup]
      · simp [findGroup, hc, Ne.symm hc]
    · simp only [addToGroup, if_neg hk]
      by_cases hc : k = c
      · subst hc
        simp [findGroup, hk, Ne.symm hk]
      · simp [findGroup, hc, ih]

theorem mem_findGroup_foldl_mono (l : List Product) (p : Product) (c : String) :
    ∀ acc, p ∈ findGroup acc c →
      p ∈ findGroup (l.foldl (fun a q => addToGroup a (displayCategory q) q) acc) c := by
  induction l with
  | nil => intro acc h; exact h
  | cons q t ih =>
    intro acc h
    apply ih
    rw [findGroup_addToGroup]
    by_cases hc : c = displayCategory q
    · simp only [if_pos hc]
      exact List.mem_append_left _ h
    · simpa only [if_neg hc] using h

theorem mem_findGroup_foldl (l : List Product) (p : Product) (hp : p ∈ l) :
    ∀ acc, p ∈ findGroup (l.foldl (fun a q => addToGroup a (displayCategory q) q) acc)
      (displayCategory p) := by
  induction l with
  | nil => cases hp
  | cons q t ih =>
    intro acc
    show p ∈ findGroup
      (t.foldl (fun a r => addToGroup a (displayCategory r) r)
        (addToGroup acc (displayCategory q) q)) (displayCategory p)
    by_cases hpt : p ∈ t
    · exact ih hpt _
    · have hpq : p = q := by
        rcases List.mem_cons.mp hp with h | h
        · exact h
        · exact absurd h hpt
      apply mem_findGroup_foldl_mono
      rw [hpq, findGroup_addToGroup]
      simp

/-! Lemmas about the group key order. -/

theorem map_fst_addToGroup (acc : List (String × List Product)) (c : String) (p : Product) :
    (addToGroup acc c p).map Prod.fst =
      if c ∈ acc.map Prod.fst then acc.map Prod.fst else acc.map Prod.fst ++ [c] := by
  induction acc with
  | nil => simp [addToGroup]
  | cons e rest ih =>
    obtain ⟨k, ps⟩ := e
    simp only [addToGroup]
    by_cases hk : k = c
    · subst hk
      simp
    · by_cases hc : c ∈ rest.map Prod.fst
      · simp [hk, hc, ih, Ne.symm hk]
      · simp [hk, hc, ih, Ne.symm hk]

theorem map_fst_foldl_addToGroup (l : List Product) :
    ∀ acc, ((l.foldl (fun a p => addToGroup a (displayCategory p) p) acc).map Prod.fst) =
      (l.map displayCategory).foldl (fun ks c => if c ∈ ks then ks else ks ++ [c])
        (acc.map Prod.fst) := by
  induction l with
  | nil => intro acc; rfl
  | cons p t ih =>
    intro acc
    simp only [List.foldl_cons, List.map_cons]
    rw [ih, map_fst_addToGroup]

/-! Lemma about the Object.entries enumeration. -/

theorem objectEntries_of_no_index_key (g : List (String × List Product))
    (h : ∀ e ∈ g, isArrayIndex e.1 = false) : objectEntries g = g := by
  unfold objectEntries
  have h1 : g.filter (fun e => isArrayIndex e.1) = [] := by
    apply List.filter_eq_nil_iff.mpr
    intro e he
    simp [h e he]
  have h2 : g.filter (fun e => !(isArrayIndex e.1)) = g := by
    apply List.filter_eq_self.mpr
    intro e he
    simp [h e he]
  rw [h1, h2]
  rfl

/-! Lemma about the listener state once an error is recorded. -/

theorem runEvents_frozen (s : AppState) (h : s.error.isSome = true) :
    ∀ es, runEvents s es = s := by
  intro es
  induction es with
  | nil => rfl
  | cons e t ih =>
    show runEvents (applySnapshot s e) t = s
    have : applySnapshot s e = s := by
      unfold applySnapshot
      rw [if_pos h]
    rw [this]
    exact ih

/-! Claim theorems. -/

/-- Claim C1, counterexample: on the spec scenario the derived category list
is not the claimed list All, Starters; the code derives categories from the
raw list, unavailable products included, so Desserts appears as well. -/
theorem c1_counterexample :
    (reduce scenarioRaw "All").categories = ["All", "Desserts", "Starters"] ∧
    (reduce scenarioRaw "All").categories ≠ ["All", "Starters"] := by
  decide

/-- Claim C1, amended: on the spec scenario the available products are Soup
alone and the grouped map has the single Starters group, but the category
list is All, Desserts, Starters, because categories are derived from the full
raw snapshot list, including unavailable products. -/
theorem c1_scenario :
    (reduce scenarioRaw "All").products = [soupProduct] ∧
    (reduce scenarioRaw "All").categories = ["All", "Desserts", "Starters"] ∧
    (reduce scenarioRaw "All").grouped = [("Starters", [soupProduct])] := by
  decide

/-- Claim C2, counterexample: with a category that sorts before the string
All and a product category that is literally the string All, the derived
list is Aardvark, All, All: its first element is not All and it has a
duplicate. -/
theorem c2_counterexample :
    uniqueCategories c2BadRaw = ["Aardvark", "All", "All"] ∧
    (uniqueCategories c2BadRaw).head? ≠ some "All" ∧
    ¬ (uniqueCategories c2BadRaw).Nodup := by
  decide

/-- Claim C2, amended: the derived category list always contains All; it is
first whenever no non-empty product category sorts strictly before the
string All in code-unit order, and the list has no duplicates whenever no
product category is itself the string All. -/
theorem c2_category_list (raw : List Product) :
    "All" ∈ uniqueCategories raw ∧
    ((∀ p ∈ raw, p.category ≠ "" → strLt p.category "All" = false) →
      (uniqueCategories raw).head? = some "All") ∧
    ((∀ p ∈ raw, p.category ≠ "All") → (uniqueCategories raw).Nodup) := by
  refine ⟨all_mem_uniqueCategories raw, ?_, ?_⟩
  · intro hyp
    unfold uniqueCategories
    apply jsSort_head_min
    · exact List.mem_cons_self _ _
    · intro b hb
      rcases List.mem_cons.mp hb with h | h
      · rw [h]; exact strLt_irrefl "All"
      · have hb2 := mem_jsSetDedup _ b h
        obtain ⟨h3, h4⟩ := List.mem_filter.mp hb2
        obtain ⟨p, hp, hpc⟩ := List.mem_map.mp h3
        rw [← hpc]
        exact hyp p hp (by rw [hpc]; simpa using h4)
  · intro hyp
    unfold uniqueCategories
    apply ((jsSort_perm _).nodup_iff).mpr
    refine List.nodup_cons.mpr ⟨?_, jsSetDedup_nodup _⟩
    intro hAll
    have h2 := mem_jsSetDedup _ _ hAll
    obtain ⟨h3, _⟩ := List.mem_filter.mp h2
    obtain ⟨p, hp, hpc⟩ := List.mem_map.mp h3
    exact hyp p hp hpc

/-- Claim C2, witness: the amended statement applied to a concrete raw
list. -/
theorem c2_category_list_witness :
    "All" ∈ uniqueCategories c2GoodRaw ∧
    (uniqueCategories c2GoodRaw).head? = some "All" ∧
    (uniqueCategories c2GoodRaw).Nodup :=
  ⟨(c2_category_list c2GoodRaw).1,
   (c2_category_list c2GoodRaw).2.1 (by decide),
   (c2_category_list c2GoodRaw).2.2 (by decide)⟩

/-- Claim C3: once a failure event has set a non-null error on a state that
had none, no sequence of later events (successful deliveries included)
changes the state, the error keeps its value, and the dispatch renders the
Error view, so a product list from a prior success is not shown. -/
theorem c3_error_sticky (s : AppState) (e : SnapshotEvent) (es : List SnapshotEvent)
    (hs : s.error = none) (hf : (applySnapshot s e).error ≠ none) :
    (runEvents (applySnapshot s e) es).error = (applySnapshot s e).error ∧
    renderProductList (runEvents (applySnapshot s e) es).loading
      (runEvents (applySnapshot s e) es).error
      (runEvents (applySnapshot s e) es).products = UIState.Error := by
  cases e with
  | success docs =>
    exfalso
    apply hf
    simp [applySnapshot, hs]
  | transformFailure msg =>
    have happ : applySnapshot s (SnapshotEvent.transformFailure msg) =
        { s with
          error := some ("Data fetch failed: " ++ msg ++ ". Please verify Firestore rules.")
          loading := false } := by
      simp [applySnapshot, hs]
    rw [happ, runEvents_frozen _ (by simp) es]
    exact ⟨rfl, by simp [renderProductList]⟩
  | subscribeFailure msg =>
    have happ : applySnapshot s (SnapshotEvent.subscribeFailure msg) =
        { s with
          error := some ("Real-time data error: " ++ msg ++ ". Please verify Firestore rules.")
          loading := false } := by
      simp [applySnapshot, hs]
    rw [happ, runEvents_frozen _ (by simp) es]
    exact ⟨rfl, by simp [renderProductList]⟩

/-- Claim C3, witness: a subscription failure after a prior successful
delivery, followed by another successful delivery, leaves the error in
place and renders the Error view. -/
theorem c3_error_sticky_witness :
    (runEvents (applySnapshot (applySnapshot initialAppState (SnapshotEvent.success c3PriorDocs))
        (SnapshotEvent.subscribeFailure "permission denied"))
        [SnapshotEvent.success c3PriorDocs]).error =
      (applySnapshot (applySnapshot initialAppState (SnapshotEvent.success c3PriorDocs))
        (SnapshotEvent.subscribeFailure "permission denied")).error ∧
    renderProductList
      (runEvents (applySnapshot (applySnapshot initialAppState (SnapshotEvent.success c3PriorDocs))
        (SnapshotEvent.subscribeFailure "permission denied"))
        [SnapshotEvent.success c3PriorDocs]).loading
      (runEvents (applySnapshot (applySnapshot initialAppState (SnapshotEvent.success c3PriorDocs))
        (SnapshotEvent.subscribeFailure "permission denied"))
        [SnapshotEvent.success c3PriorDocs]).error
      (runEvents (applySnapshot (applySnapshot initialAppState (SnapshotEvent.success c3PriorDocs))
        (SnapshotEvent.subscribeFailure "permission denied"))
        [SnapshotEvent.success c3PriorDocs]).products = UIState.Error :=
  c3_error_sticky (applySnapshot initialAppState (SnapshotEvent.success c3PriorDocs))
    (SnapshotEvent.subscribeFailure "permission denied")
    [SnapshotEvent.success c3PriorDocs] (by decide) (by decide)

/-- Claim C4: the rendering dispatch yields exactly one of the four states,
with the precedence loading, then error, then empty, then populated; the
empty test looks only at the availability-filtered list, so the number of
unavailable products in the snapshot is irrelevant. -/
theorem c4_render_dispatch (loading : Bool) (error : Option String) (raw : List Product) :
    (renderProductList loading error (raw.filter (fun p => p.available)) = UIState.Loading ↔
      loading = true) ∧
    (renderProductList loading error (raw.filter (fun p => p.available)) = UIState.Error ↔
      (loading = false ∧ error ≠ none)) ∧
    (renderProductList loading error (raw.filter (fun p => p.available)) = UIState.Empty ↔
      (loading = false ∧ error = none ∧ raw.filter (fun p => p.available) = [])) ∧
    (renderProductList loading error (raw.filter (fun p => p.available)) = UIState.Populated ↔
      (loading = false ∧ error = none ∧ raw.filter (fun p => p.available) ≠ [])) := by
  generalize (raw.filter (fun p => p.available)) = ps
  cases loading <;> cases error <;> cases ps <;> simp [renderProductList]

/-- Claim C5: every product stored in any group of the grouped view model is
available; unavailable products never appear in a group. -/
theorem c5_grouped_available (raw : List Product) (activeCategory c : String)
    (ps : List Product) (p : Product)
    (hg : (c, ps) ∈ (reduce raw activeCategory).grouped) (hp : p ∈ ps) :
    p.available = true := by
  have h1 : p ∈ groupedMembers (reduce raw activeCategory).grouped :=
    mem_groupedMembers_of_group p ps c _ hg hp
  have h2 := mem_groupedMembers_foldl
    (filteredProducts (raw.filter (fun q => q.available)) activeCategory) p [] h1
  rcases h2 with h | h
  · exact absurd h (List.not_mem_nil p)
  · obtain ⟨h4, _⟩ := List.mem_filter.mp h
    obtain ⟨_, h6⟩ := List.mem_filter.mp h4
    simpa using h6

/-- Claim C5, witness: the Soup product of the spec scenario, found in the
Starters group, is available. -/
theorem c5_grouped_available_witness : soupProduct.available = true :=
  c5_grouped_available scenarioRaw "All" "Starters" [soupProduct] soupProduct
    (by decide) (by decide)

/-- Claim C6: the subscription path is the exact artifacts string; it embeds
the built-in fallback tenant identifier whenever the fallback configuration
is active, and the externally supplied identifier otherwise. -/
theorem c6_subscription_path (externalAppId : Option String) (isFb : Bool) :
    (isFb = true →
      getProductCollectionPath (dataAppId isFb (resolveAppId externalAppId)) =
        "/artifacts/fresh-eats-admin-dev/public/data/products") ∧
    (∀ t, isFb = false → externalAppId = some t →
      getProductCollectionPath (dataAppId isFb (resolveAppId externalAppId)) =
        "/artifacts/" ++ t ++ "/public/data/products") := by
  constructor
  · intro h
    subst h
    rfl
  · intro t h he
    subst h
    subst he
    rfl

/-- Claim C6, witness: the path under the fallback configuration, and the
path for a concrete externally supplied tenant identifier. -/
theorem c6_subscription_path_witness :
    getProductCollectionPath (dataAppId true (resolveAppId none)) =
      "/artifacts/fresh-eats-admin-dev/public/data/products" ∧
    getProductCollectionPath (dataAppId false (resolveAppId (some "customer-tenant"))) =
      "/artifacts/" ++ "customer-tenant" ++ "/public/data/products" :=
  ⟨(c6_subscription_path none true).1 rfl,
   (c6_subscription_path (some "customer-tenant") false).2 "customer-tenant" rfl rfl⟩

/-- Claim C7: an absent, empty, or unparseable configuration blob resolves
to the built-in fallback configuration with the fallback flag set. -/
theorem c7_config_fallback (blob : Option String)
    (parseJson : String → Option FirebaseConfig)
    (h : blob = none ∨ blob = some "" ∨ ∃ s, blob = some s ∧ parseJson s = none) :
    resolveFirebaseConfig blob parseJson = (FALLBACK_FIREBASE_CONFIG, true) := by
  rcases h with h | h | ⟨s, hb, hp⟩
  · subst h; rfl
  · subst h; rfl
  · subst hb
    by_cases hs : s = ""
    · simp [resolveFirebaseConfig, hs]
    · simp [resolveFirebaseConfig, hs, hp]

/-- Claim C7, witness: a malformed blob (its parse fails) resolves to the
fallback configuration with the flag set. -/
theorem c7_config_fallback_witness :
    resolveFirebaseConfig (some "not valid json") (fun _ => none) =
      (FALLBACK_FIREBASE_CONFIG, true) :=
  c7_config_fallback (some "not valid json") (fun _ => none)
    (Or.inr (Or.inr ⟨"not valid json", rfl, rfl⟩))

/-- Claim C8: the view-model derivation is deterministic; structurally equal
inputs give structurally equal view states (it is a pure function of the raw
list and the active category). -/
theorem c8_reduce_deterministic (rawA rawB : List Product) (catA catB : String)
    (hraw : rawA = rawB) (hcat : catA = catB) : reduce rawA catA = reduce rawB catB := by
  subst hraw
  subst hcat
  rfl

/-- Claim C8, witness: the determinism statement applied at the spec
scenario input. -/
theorem c8_reduce_deterministic_witness :
    reduce scenarioRaw "All" = reduce scenarioRaw "All" :=
  c8_reduce_deterministic scenarioRaw scenarioRaw "All" "All" rfl rfl

/-- Claim C9, counterexample: with the groups Snacks then 2 built in that
insertion order, Object.entries enumerates the array-index-like key 2 first,
so the rendered section order is not the first-occurrence order. -/
theorem c9_counterexample :
    (objectEntries ((reduce c9Raw "All").grouped)).map Prod.fst = ["2", "Snacks"] ∧
    firstOccurrences
      ((filteredProducts (c9Raw.filter (fun p => p.available)) "All").map
        displayCategory) = ["Snacks", "2"] ∧
    (objectEntries ((reduce c9Raw "All").grouped)).map Prod.fst ≠
      firstOccurrences
        ((filteredProducts (c9Raw.filter (fun p => p.available)) "All").map
          displayCategory) := by
  decide

/-- Claim C9, amended: provided no group key is an array-index-like string
(Object.entries moves such keys to the front in ascending numeric order),
the rendered category sections follow the order of first occurrence of each
display category in the filtered product list, not the sorted order used for
the category filter strip. -/
theorem c9_rendered_group_order (raw : List Product) (activeCategory : String)
    (h : ∀ e ∈ (reduce raw activeCategory).grouped, isArrayIndex e.1 = false) :
    (objectEntries ((reduce raw activeCategory).grouped)).map Prod.fst =
      firstOccurrences
        ((filteredProducts (raw.filter (fun p => p.available)) activeCategory).map
          displayCategory) := by
  rw [objectEntries_of_no_index_key _ h]
  have h2 := map_fst_foldl_addToGroup
    (filteredProducts (raw.filter (fun p => p.available)) activeCategory) []
  simpa [reduce, productsGroupedByCategory, firstOccurrences] using h2

/-- Claim C9, witness: on a raw list with the ordinary categories Snacks,
Drinks, Snacks, the rendered section order is the first-occurrence order. -/
theorem c9_rendered_group_order_witness :
    (objectEntries ((reduce c9GoodRaw "All").grouped)).map Prod.fst =
      firstOccurrences
        ((filteredProducts (c9GoodRaw.filter (fun p => p.available)) "All").map
          displayCategory) :=
  c9_rendered_group_order c9GoodRaw "All" (by decide)

/-- Claim C10: an available product with an empty category lands in the
Uncategorized group of the All view; the string Uncategorized can only enter
the category filter list through a product whose literal category is that
string (empty categories are dropped); and under any selectable category
other than All the empty-category product is absent from every group. -/
theorem c10_uncategorized (raw : List Product) (p : Product)
    (hmem : p ∈ raw) (hav : p.available = true) (hcat : p.category = "") :
    p ∈ findGroup ((reduce raw "All").grouped) "Uncategorized" ∧
    ("Uncategorized" ∈ uniqueCategories raw →
      ∃ q, q ∈ raw ∧ q.category = "Uncategorized") ∧
    (∀ c, c ∈ uniqueCategories raw → c ≠ "All" →
      p ∉ groupedMembers ((reduce raw c).grouped)) := by
  refine ⟨?_, ?_, ?_⟩
  · have hpf : p ∈ filteredProducts (raw.filter (fun q => q.available)) "All" := by
      apply List.mem_filter.mpr
      exact ⟨List.mem_filter.mpr ⟨hmem, by simp [hav]⟩, by simp⟩
    have h := mem_findGroup_foldl _ p hpf []
    have hdc : displayCategory p = "Uncategorized" := by simp [displayCategory, hcat]
    rw [hdc] at h
    exact h
  · intro h
    rcases mem_uniqueCategories_cases raw _ h with h2 | h2
    · exact absurd h2 (by decide)
    · exact h2.2
  · intro c hc hcAll hgm
    have h2 := mem_groupedMembers_foldl
      (filteredProducts (raw.filter (fun q => q.available)) c) p [] hgm
    rcases h2 with h3 | h3
    · exact absurd h3 (List.not_mem_nil p)
    · have h4 := (List.mem_filter.mp h3).2
      rcases mem_uniqueCategories_cases raw c hc with h5 | h5
      · exact hcAll h5
      · simp [hcat] at h4
        rcases h4 with h6 | h6
        · exact hcAll h6
        · exact h5.1 h6.symm

/-- Claim C10, witness: the empty-category Water product sits in the
Uncategorized group of the All view, the Uncategorized filter entry is
accounted for by the Mystery product, and Water is in no group of the
Drinks view. -/
theorem c10_uncategorized_witness :
    waterProduct ∈ findGroup ((reduce c10Raw "All").grouped) "Uncategorized" ∧
    (∃ q, q ∈ c10Raw ∧ q.category = "Uncategorized") ∧
    waterProduct ∉ groupedMembers ((reduce c10Raw "Drinks").grouped) :=
  ⟨(c10_uncategorized c10Raw waterProduct (by decide) rfl rfl).1,
   (c10_uncategorized c10Raw waterProduct (by decide) rfl rfl).2.1 (by decide),
   (c10_uncategorized c10Raw waterProduct (by decide) rfl rfl).2.2 "Drinks"
     (by decide) (by decide)⟩

end FreshEats
